import Mathlib

/-!
Shallow embedding of the Palettator palette export / visualization pipeline
(src/main.py, src/modules/export.py) and proofs of the specification claims.

Python strings that the code inspects character by character are modelled as
`List Char`; strings that are only carried around opaquely are `String`.
-/

namespace Palettator

/-! ### Decimal and hexadecimal digit utilities (models of Python `str`/`%x`) -/

/-- Decimal rendering of `n` as a character list, as Python `str(n)` produces
for `n ≥ 0` (`Nat.toDigits 10` yields the standard decimal notation, no
leading zeros). -/
def natChars (n : Nat) : List Char := Nat.toDigits 10 n

/-- ASCII decimal digit test. -/
def isDigitChar (c : Char) : Bool := 48 ≤ c.toNat && c.toNat ≤ 57

/-- Parse a nonempty all-digit character list as a natural number. -/
def parseNat (l : List Char) : Option Nat :=
  if !l.isEmpty && l.all isDigitChar then
    some (l.foldl (fun a c => 10 * a + (c.toNat - 48)) 0)
  else none

/-- Prepend a character to the first field of a split result. -/
def consHead (c : Char) : List (List Char) → List (List Char)
  | [] => [[c]]
  | h :: t => (c :: h) :: t

/-- Split a character list at every occurrence of `sep`, Python `s.split(sep)`
semantics: `splitChar sep []` is `[[]]`, separators delimit (possibly empty)
fields. -/
def splitChar (sep : Char) : List Char → List (List Char)
  | [] => [[]]
  | c :: rest =>
    if c = sep then [] :: splitChar sep rest else consHead c (splitChar sep rest)

/-- Join fields with a single-character separator (inverse of `splitChar` on
separator-free fields). -/
def joinChar (sep : Char) (l : List (List Char)) : List Char :=
  match l with
  | [] => []
  | [f] => f
  | f :: rest => f ++ sep :: joinChar sep rest

/-! ### Color conversion (src/main.py `convert_rgb_to_hex`) -/

/-- An RGB triple as passed around by the program. -/
abbrev RGB := Nat × Nat × Nat

/-- Python `'%02x' % n` for a byte value `n < 256`: two lowercase hexadecimal
digits, zero padded (`Nat.digitChar` yields exactly Python's lowercase digit
characters for values below 16). -/
def pct02x (n : Nat) : List Char := [Nat.digitChar (n / 16), Nat.digitChar (n % 16)]

/-- Model of `convert_rgb_to_hex` (src/main.py line 91-92):
`('#%02x%02x%02x' % rgb).upper()` — the `.upper()` is applied to the whole
formatted string, `'#'` included. -/
def convert_rgb_to_hex (rgb : RGB) : List Char :=
  ('#' :: (pct02x rgb.1 ++ pct02x rgb.2.1 ++ pct02x rgb.2.2)).map Char.toUpper

/-- Uppercase hexadecimal digit test (`0`-`9`, `A`-`F`). -/
def isUpperHexDigit (c : Char) : Bool :=
  (48 ≤ c.toNat && c.toNat ≤ 57) || (65 ≤ c.toNat && c.toNat ≤ 70)

/-- Numeric value of an uppercase hexadecimal digit. -/
def hexVal (c : Char) : Nat := if c.toNat ≤ 57 then c.toNat - 48 else c.toNat - 55

/-- Decode two uppercase hexadecimal digits to a byte value. -/
def decodeHexPair (l : List Char) : Option Nat :=
  match l with
  | [c1, c2] =>
    if isUpperHexDigit c1 && isUpperHexDigit c2 then
      some (16 * hexVal c1 + hexVal c2)
    else none
  | _ => none

/-- Decode a `#RRGGBB` string (uppercase digits) back to an RGB triple. -/
def decodeHexColor (l : List Char) : Option RGB :=
  match l with
  | '#' :: c1 :: c2 :: c3 :: c4 :: c5 :: c6 :: [] => do
    let r ← decodeHexPair [c1, c2]
    let g ← decodeHexPair [c3, c4]
    let b ← decodeHexPair [c5, c6]
    pure (r, g, b)
  | _ => none

/-! ### JSON exporter (src/modules/export.py `ExportToJSon`) -/

/-- JSON values, as Python's `json` module serializes and parses the
structures the exporter builds. -/
inductive JValue where
  | str (s : String)
  | num (n : Int)
  | arr (elems : List JValue)
  | obj (fields : List (String × JValue))

/-- Model of `ExportToJSon.export` (src/modules/export.py lines 14-24): the
JSON document written to the file.  The source's `int(...)` on the RGB
components is the identity on our natural-number components; `Int.ofNat`
records that the serialized components are integers. -/
def exportToJSon (palette_name : String) (palette_rgb : List RGB)
    (palette_hex : List String) : JValue :=
  .obj [("name", .str palette_name),
        ("rgb", .arr (palette_rgb.map fun c =>
          .arr [.num (Int.ofNat c.1), .num (Int.ofNat c.2.1), .num (Int.ofNat c.2.2)])),
        ("hex", .arr (palette_hex.map .str))]

/-- Look up a field of a JSON object. -/
def JValue.field (v : JValue) (key : String) : Option JValue :=
  match v with
  | .obj fields => (fields.find? (fun f => f.1 == key)).map (fun f => f.2)
  | _ => none

/-- Read a JSON string. -/
def JValue.asString : JValue → Option String
  | .str s => some s
  | _ => none

/-- Read a JSON nonnegative integer. -/
def JValue.asNat : JValue → Option Nat
  | .num (.ofNat n) => some n
  | _ => none

/-- Read a three-element JSON array of integers as an RGB triple. -/
def JValue.asRgbTriple : JValue → Option RGB
  | .arr [r, g, b] => do pure (← r.asNat, ← g.asNat, ← b.asNat)
  | _ => none

/-- Re-parse the palette document written by the JSON exporter. -/
def decodeJsonPalette (v : JValue) : Option (String × List RGB × List String) := do
  let name ← (← v.field "name").asString
  match ← v.field "rgb", ← v.field "hex" with
  | .arr rgbs, .arr hexs =>
    let rgb ← rgbs.mapM JValue.asRgbTriple
    let hex ← hexs.mapM JValue.asString
    pure (name, rgb, hex)
  | _, _ => none

/-! ### CSV exporter (src/modules/export.py `ExportToCSV`) -/

/-- Does a field require quoting under `csv.QUOTE_MINIMAL` with delimiter `,`,
quote char `"` and the writer's default line terminator CR LF? -/
def needsQuoting (f : List Char) : Bool :=
  f.any fun c => c = ',' || c = '"' || c = '\r' || c = '\n'

/-- A field as `csv.writer` emits it under `QUOTE_MINIMAL`: quoted, with inner
quote characters doubled, exactly when it contains a special character. -/
def writeField (f : List Char) : List Char :=
  if needsQuoting f then
    '"' :: (f.flatMap fun c => if c = '"' then ['"', '"'] else [c]) ++ ['"']
  else f

/-- One CSV row: the written fields joined by the `,` delimiter. -/
def writeRow (fields : List (List Char)) : List Char :=
  joinChar ',' (fields.map writeField)

/-- Model of `ExportToCSV.export` (src/modules/export.py lines 26-35) as the
list of lines of the written file (the writer terminates every line with
CR LF): the header `R,G,B,HEX`, then one row per `zip`ped pair of an RGB
triple and a hex string.  `palette_name` is discarded, as in the source. -/
def exportToCSV (palette_name : String) (palette_rgb : List RGB)
    (palette_hex : List (List Char)) : List (List Char) :=
  let _ := palette_name
  writeRow [['R'], ['G'], ['B'], ['H', 'E', 'X']] ::
    (palette_rgb.zip palette_hex).map fun p =>
      writeRow [natChars p.1.1, natChars p.1.2.1, natChars p.1.2.2, p.2]

/-- Re-parse one unquoted CSV data row: split at `,`, read `R`, `G`, `B` as
decimal numbers and keep the hex field. -/
def parseCsvRow (row : List Char) : Option (RGB × List Char) :=
  match splitChar ',' row with
  | [r, g, b, hx] => do pure ((← parseNat r, ← parseNat g, ← parseNat b), hx)
  | _ => none

/-- Re-parse the CSV lines: check the header and read every data row. -/
def parseCsv (lines : List (List Char)) : Option (List RGB × List (List Char)) :=
  match lines with
  | header :: rows =>
    if header = ['R', ',', 'G', ',', 'B', ',', 'H', 'E', 'X'] then
      (rows.mapM parseCsvRow).map List.unzip
    else none
  | [] => none

/-! ### GPL exporter (src/modules/export.py `ExportToGPL`) -/

/-- Model of `ExportToGPL.export` (src/modules/export.py lines 38-52) as the
list of lines of the written text (the source terminates every line,
including the last, with a newline): six header lines followed by one
`R G B Index i` line per color, `i` the 0-based position. -/
def exportToGPL (palette_name : String) (palette_rgb : List RGB) : List String :=
  ["GIMP Palette",
   "Name: " ++ palette_name,
   "Columns: 5",
   "#",
   "# Number : " ++ Nat.repr palette_rgb.length,
   "#"] ++
  palette_rgb.enum.map fun p =>
    Nat.repr p.2.1 ++ " " ++ Nat.repr p.2.2.1 ++ " " ++ Nat.repr p.2.2.2 ++
      " Index " ++ Nat.repr p.1

/-! ### ACO exporter (src/modules/export.py `ExportToACO`) -/

/-- Model of Python `bytearray(l)`: yields the byte list when every entry is a
valid byte, `none` when `bytearray` raises `ValueError`. -/
def bytearray (l : List Nat) : Option (List Nat) :=
  if l.all (fun b => b < 256) then some l else none

/-- The ten-byte block `bytearray([0,0,R,R,G,G,B,B,0,0])` written per color
by `ExportToACO.export` (src/modules/export.py line 66). -/
def acoBlock (c : RGB) : List Nat :=
  [0, 0, c.1, c.1, c.2.1, c.2.1, c.2.2, c.2.2, 0, 0]

/-- Model of `ExportToACO.export` (src/modules/export.py lines 54-66): the
byte stream written to the file — version bytes `[0, 1]`, the count bytes
`[floor(nb / 255), nb % 255]`, then one ten-byte block per color — or `none`
when one of the `bytearray` constructions raises.  `palette_name` and
`palette_hex` are ignored by the source. -/
def exportToACO (palette_name : String) (palette_rgb : List RGB)
    (palette_hex : List String) : Option (List Nat) := do
  let _ := palette_name
  let _ := palette_hex
  let nb := palette_rgb.length
  let version ← bytearray [0, 1]
  let count ← bytearray [nb / 255, nb % 255]
  let blocks ← palette_rgb.mapM fun c => bytearray (acoBlock c)
  pure (version ++ count ++ blocks.flatten)

/-! ### Index resolution (src/main.py `get_indice_from_option`) -/

/-- The final bounds check of `get_indice_from_option`: `none` when the index
is below 1 or beyond the collection length. -/
def boundsCheck (indice : Int) (numPalettes : Nat) : Option Int :=
  if indice < 1 || indice > (numPalettes : Int) then none else some indice

/-- The whitespace that Python's `int()` strips around a numeric literal
(the Unicode White_Space property): TAB..CR, space, NEL, no-break space,
Ogham space mark, the spaces U+2000..U+200A, line and paragraph separators,
narrow no-break space, medium mathematical space, ideographic space. -/
def pyIntIsSpace (c : Char) : Bool :=
  (9 ≤ c.toNat && c.toNat ≤ 13) || c.toNat = 32 ||
  c.toNat = 133 || c.toNat = 160 || c.toNat = 5760 ||
  (8192 ≤ c.toNat && c.toNat ≤ 8202) || c.toNat = 8232 || c.toNat = 8233 ||
  c.toNat = 8239 || c.toNat = 8287 || c.toNat = 12288

/-- The whitespace stripped by Python `str.strip()` (`str.isspace`): the
White_Space set plus the separator controls U+001C..U+001F.  (`int()` does
not strip those four: `int("3\x1c")` raises while `"3\x1c".strip()` is
`"3"`.) -/
def pyStrIsSpace (c : Char) : Bool :=
  pyIntIsSpace c || (28 ≤ c.toNat && c.toNat ≤ 31)

/-- Python `str.strip()`: leading and trailing whitespace removed. -/
def pyStrip (l : List Char) : List Char :=
  ((l.dropWhile pyStrIsSpace).reverse.dropWhile pyStrIsSpace).reverse

/-- Python `token.startswith(("-", "--"))`: does the token start with `-`? -/
def startsWithDash : List Char → Bool
  | '-' :: _ => true
  | _ => false

/-- After the leading digit of a base-10 `int()` literal: further ASCII
digits, with single `_` group separators allowed only between digits
(`int("1_0") = 10`, while `"1__0"`, `"_1"` and `"1_"` raise). -/
def pyDigitsAux : List Char → Bool
  | [] => true
  | '_' :: c :: rest => isDigitChar c && pyDigitsAux rest
  | '_' :: [] => false
  | c :: rest => isDigitChar c && pyDigitsAux rest

/-- A valid body for base-10 Python `int()` after sign removal: one or more
ASCII digits with `_` group separators between digits only. -/
def pyDigits : List Char → Bool
  | [] => false
  | c :: rest => isDigitChar c && pyDigitsAux rest

/-- Numeric value of a digit run, `_` group separators ignored. -/
def digitsToNat (l : List Char) : Nat :=
  (l.filter (fun c => ¬c = '_')).foldl (fun a c => 10 * a + (c.toNat - 48)) 0

/-- Model of Python `int(token)` in base 10: surrounding whitespace is
stripped (`int()`'s White_Space set), then an optional sign and one or more
ASCII decimal digits with `_` group separators between digits; `none` models
the `ValueError` branch.  Python additionally accepts non-ASCII Unicode
decimal digits (category Nd, e.g. U+0663); those are outside this model,
which is why the non-numeric-token part of the resolution theorem is stated
for ASCII tokens. -/
def pyInt (tok : List Char) : Option Int :=
  match (tok.dropWhile pyIntIsSpace).reverse.dropWhile pyIntIsSpace |>.reverse with
  | '+' :: ds => if pyDigits ds then some (digitsToNat ds) else none
  | '-' :: ds => if pyDigits ds then some (-(digitsToNat ds : Int)) else none
  | ds => if pyDigits ds then some (digitsToNat ds) else none

/-- The body of `get_indice_from_option` (src/main.py lines 202-219) applied
to `image_path.strip().split(' ')`: `some (-1)` is the ALL wildcard, `none`
the invalid result.  A second token starting with `-` is taken as an option
flag and the index defaults to 1; the ALL wildcard is recognized (before
`int` parsing) only when `all` is set and the token is exactly `all` or
`ALL`. -/
def get_indice_core (indice_split : List (List Char)) (numPalettes : Nat)
    (all : Bool) : Option Int :=
  match indice_split with
  | _ :: tok :: _ =>
    if startsWithDash tok then boundsCheck 1 numPalettes
    else if all && (tok = "all".toList || tok = "ALL".toList) then some (-1)
    else
      match pyInt tok with
      | none => none
      | some indice => boundsCheck indice numPalettes
  | _ => boundsCheck 1 numPalettes

/-- Model of `get_indice_from_option` (src/main.py lines 202-219); the
collection is abstracted to its length `numPalettes`. -/
def get_indice_from_option (image_path : List Char) (numPalettes : Nat)
    (all : Bool) : Option Int :=
  get_indice_core (splitChar ' ' (pyStrip image_path)) numPalettes all

/-! ### Batch extraction loop (src/main.py `main`, lines 499-512) -/

/-- Abstract result of `get_palette` for one image. -/
structure PaletteData where
  rgb : List RGB
deriving DecidableEq

/-- One image of a batch with the outcomes of its two fallible steps:
`extract = none` models `extract_colors` raising inside `get_palette`;
`render = none` models `save_palette` raising; `render = some p` carries the
path of the rendered palette image. -/
structure ImageJob where
  path : String
  extract : Option PaletteData
  render : Option String
deriving DecidableEq

/-- Model of `PaletteObject` (src/main.py lines 45-49). -/
structure PaletteObject where
  palette : PaletteData
  image_path : String
  palette_path : String
deriving DecidableEq

/-- Model of the batch-extraction loop in `main` (src/main.py lines 499-512).
`get_palette` is called OUTSIDE the `try` block, so an extraction failure
propagates and aborts the loop (`Except.error` with the failing path).  A
failure inside the `try` block (`save_palette`) is caught and logged and the
image is skipped; a success appends a `PaletteObject`. -/
def processBatch : List ImageJob → Except String (List PaletteObject)
  | [] => .ok []
  | job :: rest =>
    match job.extract with
    | none => .error job.path
    | some pal =>
      match job.render with
      | none => processBatch rest
      | some rendered =>
        match processBatch rest with
        | .error e => .error e
        | .ok objs =>
          .ok ({ palette := pal, image_path := job.path, palette_path := rendered } :: objs)

/-- The record a job contributes when both of its fallible steps succeed. -/
def jobRecord (job : ImageJob) : Option PaletteObject :=
  match job.extract, job.render with
  | some pal, some rendered =>
    some { palette := pal, image_path := job.path, palette_path := rendered }
  | _, _ => none

/-! ### Swatch render layout (src/main.py `create_palette_image`) -/

/-- The layout part of the configuration read by `create_palette_image`. -/
structure RenderConfig where
  square_x : Nat
  square_y : Nat
  columns : Nat
deriving DecidableEq

/-- One `draw.rectangle` call: the corner coordinates `[x, y, x2, y2]` and the
fill color. -/
structure RectCall where
  x : Nat
  y : Nat
  x2 : Nat
  y2 : Nat
  fill : RGB
deriving DecidableEq

/-- The geometric content of `create_palette_image` (src/main.py lines
94-137): canvas width and height, and the color-square rectangle drawn for
palette entry `i` (column `i % columns`, row `i / columns`).
`ceil(len(palette.colors) / columns)` is the exact ceiling of the division,
written `(len + columns - 1) / columns` on naturals; the text labels and font
handling draw no rectangles and are not modelled.  Faithful for
`columns > 0` (Python raises `ZeroDivisionError` at `columns = 0`). -/
def create_palette_image (cfg : RenderConfig) (palette_rgb : List RGB) :
    Nat × Nat × List RectCall :=
  let lines := (palette_rgb.length + cfg.columns - 1) / cfg.columns
  let image_width := cfg.columns * cfg.square_x
  let image_height := lines * cfg.square_y
  (image_width, image_height,
    palette_rgb.enum.map fun p =>
      { x := (p.1 % cfg.columns) * cfg.square_x
        y := (p.1 / cfg.columns) * cfg.square_y
        x2 := (p.1 % cfg.columns) * cfg.square_x + cfg.square_x
        y2 := (p.1 / cfg.columns) * cfg.square_y + cfg.square_y
        fill := p.2 })

/-! ### Output file naming (src/main.py `save_palette` and `export`) -/

/-- Model of `os.path.basename`: the part of the path after the last `/`. -/
def basenameChars (path : List Char) : List Char :=
  (splitChar '/' path).getLastD []

/-- `image_name.split('.')[0]` as written in `save_palette` (line 163) and in
`export` (line 266): the first field of the split at `.`. -/
def firstDotField (name : List Char) : List Char :=
  (splitChar '.' name).headD []

/-- The file name `save_palette` (src/main.py lines 160-171) builds for the
rendered palette image. -/
def save_palette_filename (image_path : List Char) : List Char :=
  firstDotField (basenameChars image_path) ++ "_palette.png".toList

/-- The file name `export` (src/main.py lines 253-272) builds for an exported
palette with the given extension. -/
def export_filename (image_path : List Char) (extension : List Char) : List Char :=
  firstDotField (basenameChars image_path) ++ "_palette.".toList ++ extension

/-- The spec's reading of the base name: the portion of the file's basename
strictly before the first `.`. -/
def beforeFirstDot (name : List Char) : List Char :=
  name.takeWhile (fun c => c ≠ '.')

end Palettator

namespace Palettator

/-! ### Lemmas about the digit utilities -/

set_option maxRecDepth 4000 in
theorem pct02x_upper_byte (n : Nat) (h : n < 256) :
    ((pct02x n).map Char.toUpper).all isUpperHexDigit = true ∧
      decodeHexPair ((pct02x n).map Char.toUpper) = some n := by
  revert n h
  decide

set_option maxRecDepth 8000 in
theorem natChars_byte (n : Nat) (h : n < 256) :
    parseNat (natChars n) = some n ∧ needsQuoting (natChars n) = false := by
  revert n h
  decide

/-! ### Lemmas about `splitChar` and `joinChar` -/

theorem splitChar_ne_nil (sep : Char) (l : List Char) : splitChar sep l ≠ [] := by
  cases l with
  | nil => simp [splitChar]
  | cons c rest =>
    simp only [splitChar]
    split
    · simp
    · cases splitChar sep rest <;> simp [consHead]

theorem splitChar_of_not_mem {sep : Char} {l : List Char} (h : sep ∉ l) :
    splitChar sep l = [l] := by
  induction l with
  | nil => rfl
  | cons c rest ih =>
    have hc : ¬c = sep := fun hcs => h (hcs ▸ List.mem_cons_self c rest)
    have hrest : sep ∉ rest := fun hm => h (List.mem_cons_of_mem _ hm)
    simp only [splitChar, if_neg hc, ih hrest, consHead]

theorem splitChar_append_sep {sep : Char} {l : List Char} :
    ∀ {f : List Char}, sep ∉ f →
      splitChar sep (f ++ sep :: l) = f :: splitChar sep l := by
  intro f
  induction f with
  | nil =>
    intro _
    simp [splitChar]
  | cons c f ih =>
    intro hf
    have hc : ¬c = sep := fun hcs => hf (hcs ▸ List.mem_cons_self c f)
    have hf' : sep ∉ f := fun hm => hf (List.mem_cons_of_mem _ hm)
    rw [List.cons_append]
    simp only [splitChar, if_neg hc, ih hf', consHead]

theorem splitChar_joinChar {sep : Char} :
    ∀ {fs : List (List Char)}, fs ≠ [] → (∀ f ∈ fs, sep ∉ f) →
      splitChar sep (joinChar sep fs) = fs := by
  intro fs
  induction fs with
  | nil => intro h; exact absurd rfl h
  | cons f rest ih =>
    intro _ hmem
    cases rest with
    | nil =>
      simpa [joinChar] using splitChar_of_not_mem (hmem f (List.mem_cons_self ..))
    | cons g rest' =>
      have hjoin : joinChar sep (f :: g :: rest') = f ++ sep :: joinChar sep (g :: rest') := rfl
      rw [hjoin, splitChar_append_sep (hmem f (List.mem_cons_self ..)),
        ih (by simp) (fun x hx => hmem x (List.mem_cons_of_mem _ hx))]

theorem splitChar_headD (sep : Char) (l : List Char) :
    (splitChar sep l).headD [] = l.takeWhile (fun c => ¬c = sep) := by
  induction l with
  | nil => rfl
  | cons c rest ih =>
    simp only [splitChar]
    by_cases hc : c = sep
    · subst hc
      rw [if_pos rfl]
      simp [List.takeWhile_cons]
    · rw [if_neg hc]
      cases h : splitChar sep rest with
      | nil => exact absurd h (splitChar_ne_nil sep rest)
      | cons a t =>
        rw [h] at ih
        simp only [List.headD] at ih
        simp [consHead, List.takeWhile_cons, hc, ih]

/-! ### Lemmas about `List.mapM` in the `Option` monad -/

theorem mapM_eq_some_map {α β : Type} {f : α → Option β} {g : α → β} :
    ∀ {l : List α}, (∀ a ∈ l, f a = some (g a)) → l.mapM f = some (l.map g) := by
  intro l
  induction l with
  | nil => intro _; rfl
  | cons a l ih =>
    intro h
    rw [List.mapM_cons, h a (List.mem_cons_self ..),
      ih (fun x hx => h x (List.mem_cons_of_mem _ hx))]
    rfl

theorem mapM_map_eq_some {α β : Type} {f : α → β} {g : β → Option α} :
    ∀ {l : List α}, (∀ a ∈ l, g (f a) = some a) → (l.map f).mapM g = some l := by
  intro l
  induction l with
  | nil => intro _; rfl
  | cons a l ih =>
    intro h
    rw [List.map_cons, List.mapM_cons, h a (List.mem_cons_self ..),
      ih (fun x hx => h x (List.mem_cons_of_mem _ hx))]
    rfl

/-! ### Claim C7: rgbToHex round-trip -/

/-- **C7.**  For every valid RGB triple of 8-bit components,
`convert_rgb_to_hex` yields a 7-character string: `#` followed by exactly six
uppercase zero-padded hexadecimal digits, and decoding the string reproduces
the original triple. -/
theorem claim_C7_rgb_to_hex (r g b : Nat) (hr : r < 256) (hg : g < 256) (hb : b < 256) :
    (convert_rgb_to_hex (r, g, b)).length = 7 ∧
    (convert_rgb_to_hex (r, g, b)).head? = some '#' ∧
    ((convert_rgb_to_hex (r, g, b)).drop 1).all isUpperHexDigit = true ∧
    decodeHexColor (convert_rgb_to_hex (r, g, b)) = some (r, g, b) := by
  obtain ⟨hallr, hdecr⟩ := pct02x_upper_byte r hr
  obtain ⟨hallg, hdecg⟩ := pct02x_upper_byte g hg
  obtain ⟨hallb, hdecb⟩ := pct02x_upper_byte b hb
  refine ⟨?_, ?_, ?_, ?_⟩
  · simp [convert_rgb_to_hex, pct02x]
  · simp [convert_rgb_to_hex, pct02x]
  · simp only [pct02x, List.map_cons, List.map_nil, List.all_cons, List.all_nil,
      Bool.and_true, Bool.and_eq_true] at hallr hallg hallb
    simp [convert_rgb_to_hex, pct02x, hallr.1, hallr.2, hallg.1, hallg.2, hallb.1, hallb.2]
  · simp only [pct02x, List.map_cons, List.map_nil] at hdecr hdecg hdecb
    simp only [convert_rgb_to_hex, pct02x, List.map_cons, List.map_append,
      List.map_nil, List.cons_append, List.nil_append]
    simp [decodeHexColor, hdecr, hdecg, hdecb]

/-- **C7 witness.**  The round-trip theorem instantiated at `(255, 0, 16)`. -/
theorem claim_C7_witness :
    decodeHexColor (convert_rgb_to_hex (255, 0, 16)) = some (255, 0, 16) :=
  (claim_C7_rgb_to_hex 255 0 16 (by decide) (by decide) (by decide)).2.2.2

/-! ### Claim C9: output file naming truncates at the first dot -/

/-- **C9.**  The base name used by both `save_palette` and `export` is the
portion of the image file's basename strictly before its first `.`: the split
at `.` taken at index 0 equals `takeWhile (· ≠ '.')`, so both file names are
that prefix followed by `_palette.{ext}`; in particular `a.b.png` yields
`a_palette.png` and `a_palette.csv`. -/
theorem claim_C9_filename_first_dot (image_path extension : List Char) :
    save_palette_filename image_path =
      beforeFirstDot (basenameChars image_path) ++ "_palette.png".toList ∧
    export_filename image_path extension =
      beforeFirstDot (basenameChars image_path) ++ "_palette.".toList ++ extension ∧
    save_palette_filename "a.b.png".toList = "a_palette.png".toList ∧
    export_filename "a.b.png".toList "csv".toList = "a_palette.csv".toList := by
  have hfield : ∀ l : List Char, firstDotField l = beforeFirstDot l := by
    intro l
    simpa [firstDotField, beforeFirstDot] using splitChar_headD '.' l
  exact ⟨by rw [save_palette_filename, hfield],
    by rw [export_filename, hfield], by decide, by decide⟩

/-! ### Claim C3: ACO byte-stream layout -/

theorem length_flatten_acoBlock (l : List RGB) :
    ((l.map acoBlock).flatten).length = 10 * l.length := by
  induction l with
  | nil => rfl
  | cons c l ih =>
    simp only [List.map_cons, List.flatten_cons, List.length_append, ih, List.length_cons]
    simp [acoBlock]
    omega

theorem take_drop_flatten_acoBlock :
    ∀ (l : List RGB) (i : Nat), (h : i < l.length) →
      (((l.map acoBlock).flatten).drop (10 * i)).take 10 = acoBlock (l.get ⟨i, h⟩) := by
  intro l
  induction l with
  | nil => intro i h; exact absurd h (Nat.not_lt_zero i)
  | cons c l ih =>
    intro i h
    cases i with
    | zero =>
      simp only [Nat.mul_zero, List.drop_zero, List.map_cons, List.flatten_cons]
      exact List.take_left' rfl
    | succ i =>
      have h10 : 10 * (i + 1) = (acoBlock c).length + 10 * i := by
        simp [acoBlock]
        omega
      simp only [List.map_cons, List.flatten_cons, h10, List.drop_append]
      exact ih i (Nat.lt_of_succ_lt_succ h)

/-- **C3 (amended).**  For every list of 8-bit RGB triples whose length `N` is
below 65280 (so that both count bytes fit into a byte — for `N ≥ 65280` the
export raises, see the counterexample), the written byte stream has length
`4 + 10·N`; its first two bytes are `[0, 1]`; its third and fourth bytes are
`N div 255` and `N mod 255`; and the 10-byte block of color `i` is
`[0, 0, R, R, G, G, B, B, 0, 0]` — leading and trailing pairs zero and each
channel duplicated. -/
theorem claim_C3_aco_layout (name : String) (rgb : List RGB) (hex : List String)
    (hcomp : ∀ c ∈ rgb, c.1 < 256 ∧ c.2.1 < 256 ∧ c.2.2 < 256)
    (hcount : rgb.length < 65280) :
    exportToACO name rgb hex =
      some ([0, 1, rgb.length / 255, rgb.length % 255] ++ (rgb.map acoBlock).flatten) ∧
    ∀ bs, exportToACO name rgb hex = some bs →
      bs.length = 4 + 10 * rgb.length ∧
      bs.take 2 = [0, 1] ∧
      bs[2]? = some (rgb.length / 255) ∧
      bs[3]? = some (rgb.length % 255) ∧
      ∀ i, (hi : i < rgb.length) →
        (bs.drop (4 + 10 * i)).take 10 =
          [0, 0, (rgb.get ⟨i, hi⟩).1, (rgb.get ⟨i, hi⟩).1,
           (rgb.get ⟨i, hi⟩).2.1, (rgb.get ⟨i, hi⟩).2.1,
           (rgb.get ⟨i, hi⟩).2.2, (rgb.get ⟨i, hi⟩).2.2, 0, 0] := by
  have h1 : rgb.length / 255 < 256 := by omega
  have h2 : rgb.length % 255 < 256 := by omega
  have hblocks : rgb.mapM (fun c => bytearray (acoBlock c)) = some (rgb.map acoBlock) :=
    mapM_eq_some_map (fun c hc => by
      obtain ⟨hr, hg, hb⟩ := hcomp c hc
      simp [bytearray, acoBlock, hr, hg, hb])
  have hcnt : bytearray [rgb.length / 255, rgb.length % 255] =
      some [rgb.length / 255, rgb.length % 255] := by
    simp [bytearray, h1, h2]
  have hexp : exportToACO name rgb hex =
      some ([0, 1, rgb.length / 255, rgb.length % 255] ++ (rgb.map acoBlock).flatten) := by
    simp only [exportToACO, show bytearray [0, 1] = some [0, 1] from rfl, hcnt, hblocks,
      Option.bind_eq_bind, Option.some_bind]
    rfl
  refine ⟨hexp, ?_⟩
  intro bs hbs
  rw [hexp, Option.some_inj] at hbs
  subst hbs
  refine ⟨?_, ?_, ?_, ?_, ?_⟩
  · rw [List.length_append, length_flatten_acoBlock]
    rfl
  · simp
  · simp
  · simp
  · intro i hi
    have h4 : 4 + 10 * i =
        ([0, 1, rgb.length / 255, rgb.length % 255] : List Nat).length + 10 * i := rfl
    rw [h4, List.drop_append, take_drop_flatten_acoBlock rgb i hi]
    rfl

/-- **C3 counterexample.**  At 65280 colors the count high byte is
`65280 div 255 = 256`, which does not fit into a byte: `bytearray` raises and
no stream of length `4 + 10·N` is written, refuting the claim's unbounded
"for every RGB list". -/
theorem claim_C3_counterexample :
    exportToACO "img" (List.replicate 65280 ((0 : Nat), (0 : Nat), (0 : Nat))) [] = none := by
  have h : (List.replicate 65280 ((0 : Nat), (0 : Nat), (0 : Nat))).length = 65280 :=
    List.length_replicate ..
  have hcnt : bytearray [(List.replicate 65280 ((0 : Nat), (0 : Nat), (0 : Nat))).length / 255,
      (List.replicate 65280 ((0 : Nat), (0 : Nat), (0 : Nat))).length % 255] = none := by
    rw [h]
    decide
  simp only [exportToACO, hcnt, Option.bind_eq_bind, Option.some_bind, Option.none_bind]
  rfl

/-- **C3 witness.**  The amended theorem applied to the single-color palette
`[(255, 0, 16)]`. -/
theorem claim_C3_witness :
    exportToACO "img" [((255 : Nat), (0 : Nat), (16 : Nat))] ["#FF0010"] =
      some [0, 1, 0, 1, 0, 0, 255, 255, 0, 0, 16, 16, 0, 0] :=
  (claim_C3_aco_layout "img" [(255, 0, 16)] ["#FF0010"] (by decide) (by decide)).1

/-! ### Claim C4: CSV export -/

theorem comma_not_mem_of_clean {f : List Char} (h : needsQuoting f = false) : ',' ∉ f := by
  intro hm
  have htrue : needsQuoting f = true := by
    unfold needsQuoting
    rw [List.any_eq_true]
    exact ⟨',', hm, by simp⟩
  rw [htrue] at h
  cases h

theorem writeField_of_clean {f : List Char} (h : needsQuoting f = false) :
    writeField f = f := by
  simp [writeField, h]

theorem splitChar_writeRow_four {f1 f2 f3 f4 : List Char}
    (h1 : needsQuoting f1 = false) (h2 : needsQuoting f2 = false)
    (h3 : needsQuoting f3 = false) (h4 : needsQuoting f4 = false) :
    writeRow [f1, f2, f3, f4] = joinChar ',' [f1, f2, f3, f4] ∧
    splitChar ',' (writeRow [f1, f2, f3, f4]) = [f1, f2, f3, f4] := by
  have hw : writeRow [f1, f2, f3, f4] = joinChar ',' [f1, f2, f3, f4] := by
    simp [writeRow, writeField_of_clean h1, writeField_of_clean h2,
      writeField_of_clean h3, writeField_of_clean h4]
  refine ⟨hw, ?_⟩
  rw [hw]
  refine splitChar_joinChar (by simp) ?_
  intro f hf
  simp only [List.mem_cons, List.not_mem_nil, or_false] at hf
  rcases hf with rfl | rfl | rfl | rfl
  exacts [comma_not_mem_of_clean h1, comma_not_mem_of_clean h2,
    comma_not_mem_of_clean h3, comma_not_mem_of_clean h4]

theorem parseCsvRow_writeRow {r g b : Nat} {hx : List Char}
    (hr : r < 256) (hg : g < 256) (hb : b < 256)
    (hhx : needsQuoting hx = false) :
    parseCsvRow (writeRow [natChars r, natChars g, natChars b, hx]) =
      some ((r, g, b), hx) := by
  obtain ⟨hpr, hqr⟩ := natChars_byte r hr
  obtain ⟨hpg, hqg⟩ := natChars_byte g hg
  obtain ⟨hpb, hqb⟩ := natChars_byte b hb
  have hsplit := (splitChar_writeRow_four hqr hqg hqb hhx).2
  unfold parseCsvRow
  rw [hsplit]
  simp [hpr, hpg, hpb]

/-- **C4.**  For every palette with equal-length 8-bit RGB and hex lists
(hex fields free of CSV special characters, as every `#RRGGBB` string is),
the CSV export has exactly `N + 1` lines — the header `R,G,B,HEX` first, then
the `R,G,B,HEX` fields of color `i` on line `i + 1` — and re-parsing the
output reproduces the original RGB and hex lists in order. -/
theorem claim_C4_csv_export (name : String) (rgb : List RGB) (hex : List (List Char))
    (hlen : rgb.length = hex.length)
    (hcomp : ∀ c ∈ rgb, c.1 < 256 ∧ c.2.1 < 256 ∧ c.2.2 < 256)
    (hclean : ∀ hx ∈ hex, needsQuoting hx = false) :
    (exportToCSV name rgb hex).length = rgb.length + 1 ∧
    (exportToCSV name rgb hex).headD [] = ['R', ',', 'G', ',', 'B', ',', 'H', 'E', 'X'] ∧
    (∀ i, (hi : i < rgb.length) →
      (exportToCSV name rgb hex)[i + 1]? =
        some (natChars (rgb.get ⟨i, hi⟩).1 ++
          ',' :: natChars (rgb.get ⟨i, hi⟩).2.1 ++
          ',' :: natChars (rgb.get ⟨i, hi⟩).2.2 ++
          ',' :: hex.get ⟨i, hlen ▸ hi⟩)) ∧
    parseCsv (exportToCSV name rgb hex) = some (rgb, hex) := by
  have hziplen : (rgb.zip hex).length = rgb.length := by
    rw [List.length_zip, hlen, Nat.min_self]
  refine ⟨?_, ?_, ?_, ?_⟩
  · simp [exportToCSV, hziplen]
  · rw [exportToCSV]
    rw [List.headD_cons]
    decide
  · intro i hi
    have hi' : i < (rgb.zip hex).length := by omega
    have hihex : i < hex.length := by omega
    rw [exportToCSV, List.getElem?_cons_succ, List.getElem?_map,
      List.getElem?_eq_getElem hi']
    have hzip : (rgb.zip hex)[i] = (rgb[i], hex[i]) := List.getElem_zip
    rw [hzip]
    obtain ⟨hcr, hcg, hcb⟩ := hcomp rgb[i] (List.getElem_mem hi)
    have hq := hclean hex[i] (List.getElem_mem hihex)
    obtain ⟨_, hqr⟩ := natChars_byte _ hcr
    obtain ⟨_, hqg⟩ := natChars_byte _ hcg
    obtain ⟨_, hqb⟩ := natChars_byte _ hcb
    rw [Option.map_some', (splitChar_writeRow_four hqr hqg hqb hq).1]
    simp [joinChar]
  · have hrows : ((rgb.zip hex).map fun p =>
        writeRow [natChars p.1.1, natChars p.1.2.1, natChars p.1.2.2, p.2]).mapM
          parseCsvRow = some (rgb.zip hex) := by
      refine mapM_map_eq_some ?_
      intro p hp
      obtain ⟨c, hx⟩ := p
      obtain ⟨hcm, hhm⟩ := List.of_mem_zip hp
      obtain ⟨cr, cg, cb⟩ := c
      obtain ⟨hc1, hc2, hc3⟩ := hcomp _ hcm
      exact parseCsvRow_writeRow hc1 hc2 hc3 (hclean _ hhm)
    rw [exportToCSV]
    simp only [parseCsv]
    rw [if_pos (by decide), hrows]
    simp [List.unzip_zip hlen]

/-- **C4 witness.**  The CSV theorem applied to the one-color palette
`[(255, 0, 16)]` with hex list `["#FF0010"]`. -/
theorem claim_C4_witness :
    (exportToCSV "img" [((255 : Nat), (0 : Nat), (16 : Nat))]
      [['#', 'F', 'F', '0', '0', '1', '0']]).length = 2 ∧
    parseCsv (exportToCSV "img" [((255 : Nat), (0 : Nat), (16 : Nat))]
      [['#', 'F', 'F', '0', '0', '1', '0']]) =
      some ([(255, 0, 16)], [['#', 'F', 'F', '0', '0', '1', '0']]) := by
  have h := claim_C4_csv_export "img" [(255, 0, 16)] [['#', 'F', 'F', '0', '0', '1', '0']]
    (by decide) (by decide) (by decide)
  exact ⟨h.1, h.2.2.2⟩

/-! ### Claim C5: JSON export round-trip -/

/-- **C5.**  For every palette name, RGB list and hex list of equal length,
the JSON document written by the exporter parses back to the object whose
`name` is the input name and whose `rgb` and `hex` arrays (integer RGB
components) equal the input lists, same order and length. -/
theorem claim_C5_json_roundtrip (name : String) (rgb : List RGB) (hex : List String)
    (hlen : rgb.length = hex.length) :
    decodeJsonPalette (exportToJSon name rgb hex) = some (name, rgb, hex) := by
  have hname : (exportToJSon name rgb hex).field "name" = some (.str name) := rfl
  have hrgb : (exportToJSon name rgb hex).field "rgb" =
      some (.arr (rgb.map fun c =>
        .arr [.num (Int.ofNat c.1), .num (Int.ofNat c.2.1), .num (Int.ofNat c.2.2)])) := rfl
  have hhex : (exportToJSon name rgb hex).field "hex" =
      some (.arr (hex.map .str)) := rfl
  have hrgbM : (rgb.map fun c =>
      JValue.arr [.num (Int.ofNat c.1), .num (Int.ofNat c.2.1),
        .num (Int.ofNat c.2.2)]).mapM JValue.asRgbTriple = some rgb :=
    mapM_map_eq_some (fun c _ => by obtain ⟨r, g, b⟩ := c; rfl)
  have hhexM : (hex.map JValue.str).mapM JValue.asString = some hex :=
    mapM_map_eq_some (fun s _ => rfl)
  simp only [decodeJsonPalette, hname, hrgb, hhex, Option.bind_eq_bind, Option.some_bind,
    JValue.asString, hrgbM, hhexM]
  rfl

/-- **C5 witness.**  The round-trip applied to a one-color palette. -/
theorem claim_C5_witness :
    decodeJsonPalette (exportToJSon "img" [((255 : Nat), (0 : Nat), (16 : Nat))] ["#FF0010"]) =
      some ("img", [(255, 0, 16)], ["#FF0010"]) :=
  claim_C5_json_roundtrip "img" [(255, 0, 16)] ["#FF0010"] (by decide)

/-! ### Claim C6: GPL text layout -/

/-- **C6.**  For every palette of `N` colors the GPL export consists of the
six header lines `GIMP Palette`, `Name: {name}`, `Columns: 5`, `#`,
`# Number : {N}`, `#` followed by exactly `N` color lines
`{R} {G} {B} Index {i}` in palette order, with 0-based indices. -/
theorem claim_C6_gpl_export (name : String) (rgb : List RGB) :
    (exportToGPL name rgb).length = 6 + rgb.length ∧
    (exportToGPL name rgb).take 6 =
      ["GIMP Palette", "Name: " ++ name, "Columns: 5", "#",
       "# Number : " ++ Nat.repr rgb.length, "#"] ∧
    ∀ i, (hi : i < rgb.length) →
      (exportToGPL name rgb)[6 + i]? =
        some (Nat.repr (rgb.get ⟨i, hi⟩).1 ++ " " ++ Nat.repr (rgb.get ⟨i, hi⟩).2.1 ++ " " ++
          Nat.repr (rgb.get ⟨i, hi⟩).2.2 ++ " Index " ++ Nat.repr i) := by
  refine ⟨?_, ?_, ?_⟩
  · simp [exportToGPL]
    omega
  · rw [exportToGPL]
    exact List.take_left' rfl
  · intro i hi
    rw [exportToGPL, List.getElem?_append_right (by simp)]
    simp [List.getElem?_enum, List.getElem?_eq_getElem hi]

/-- **C6 witness.**  The GPL layout theorem applied to a one-color palette. -/
theorem claim_C6_witness :
    (exportToGPL "img" [((1 : Nat), (2 : Nat), (3 : Nat))]).length = 7 ∧
    (exportToGPL "img" [((1 : Nat), (2 : Nat), (3 : Nat))])[6]? = some "1 2 3 Index 0" := by
  refine ⟨(claim_C6_gpl_export "img" [(1, 2, 3)]).1, ?_⟩
  have h := (claim_C6_gpl_export "img" [(1, 2, 3)]).2.2 0 (by decide)
  exact h

/-! ### Claim C8: swatch render layout -/

/-- **C8.**  For every palette of `N` colors and configuration with
`columns > 0`: the canvas is `columns·squareWidth` wide and
`ceil(N / columns)·squareHeight` tall (the row count is characterized as the
exact ceiling), and the swatch rectangle of 0-based index `i` has its
top-left corner at `((i mod columns)·squareWidth, (i div columns)·squareHeight)`. -/
theorem claim_C8_swatch_layout (cfg : RenderConfig) (rgb : List RGB)
    (hc : 0 < cfg.columns) :
    (create_palette_image cfg rgb).1 = cfg.columns * cfg.square_x ∧
    (create_palette_image cfg rgb).2.1 =
      ((rgb.length + cfg.columns - 1) / cfg.columns) * cfg.square_y ∧
    (rgb.length ≤ cfg.columns * ((rgb.length + cfg.columns - 1) / cfg.columns) ∧
      cfg.columns * ((rgb.length + cfg.columns - 1) / cfg.columns) <
        rgb.length + cfg.columns) ∧
    (create_palette_image cfg rgb).2.2.length = rgb.length ∧
    ∀ i, (hi : i < rgb.length) →
      (create_palette_image cfg rgb).2.2[i]? = some
        { x := (i % cfg.columns) * cfg.square_x
          y := (i / cfg.columns) * cfg.square_y
          x2 := (i % cfg.columns) * cfg.square_x + cfg.square_x
          y2 := (i / cfg.columns) * cfg.square_y + cfg.square_y
          fill := rgb.get ⟨i, hi⟩ } := by
  refine ⟨rfl, rfl, ?_, ?_, ?_⟩
  · have hdm := Nat.div_add_mod (rgb.length + cfg.columns - 1) cfg.columns
    have hlt := Nat.mod_lt (rgb.length + cfg.columns - 1) hc
    generalize hX : cfg.columns * ((rgb.length + cfg.columns - 1) / cfg.columns) = X at hdm ⊢
    omega
  · simp [create_palette_image]
  · intro i hi
    simp [create_palette_image, List.getElem?_enum, List.getElem?_eq_getElem hi]

/-- **C8 witness.**  The layout theorem at the default 3-column, 100×100
configuration on a four-color palette: a 300×200 canvas, and the fourth
swatch starts the second row at `(0, 100)`. -/
theorem claim_C8_witness :
    (create_palette_image ⟨100, 100, 3⟩
      [((1:Nat),(2:Nat),(3:Nat)), (4,5,6), (7,8,9), (10,11,12)]).1 = 300 ∧
    (create_palette_image ⟨100, 100, 3⟩
      [((1:Nat),(2:Nat),(3:Nat)), (4,5,6), (7,8,9), (10,11,12)]).2.1 = 200 ∧
    (create_palette_image ⟨100, 100, 3⟩
      [((1:Nat),(2:Nat),(3:Nat)), (4,5,6), (7,8,9), (10,11,12)]).2.2[3]? =
      some ⟨0, 100, 100, 200, (10, 11, 12)⟩ :=
  ⟨(claim_C8_swatch_layout ⟨100, 100, 3⟩ _ (by decide)).1,
   (claim_C8_swatch_layout ⟨100, 100, 3⟩ _ (by decide)).2.1,
   (claim_C8_swatch_layout ⟨100, 100, 3⟩ _ (by decide)).2.2.2.2 3 (by decide)⟩

/-! ### Claim C1: index resolution -/

theorem boundsCheck_in {k : Int} {n : Nat} (h1 : 1 ≤ k) (h2 : k ≤ (n : Int)) :
    boundsCheck k n = some k := by
  unfold boundsCheck
  split
  · next h =>
    simp only [Bool.or_eq_true, decide_eq_true_eq] at h
    omega
  · rfl

theorem boundsCheck_out {k : Int} {n : Nat} (h : k < 1 ∨ (n : Int) < k) :
    boundsCheck k n = none := by
  unfold boundsCheck
  split
  · rfl
  · next hcond =>
    simp only [Bool.or_eq_true, decide_eq_true_eq] at hcond
    omega

/-- **C1 (amended).**  Index resolution over a collection of
`numPalettes ≥ 1` records, on the space-split token list of the input: an
omitted token defaults to index 1; with `allowAll` set, exactly the tokens
`all` and `ALL` (no other casing) return the ALL wildcard `-1`, and both are
invalid when `allowAll` is unset; a token starting with `-` is treated as an
option flag and also defaults to index 1; a token that `int()` accepts —
optional sign and ASCII digits, with `_` group separators and surrounding
whitespace allowed — resolves to that value when it lies in
`1..numPalettes` and is invalid when out of that range; and every other
ASCII token that `int()` rejects is invalid (the ASCII hypothesis marks the
model boundary: Python would additionally accept tokens of non-ASCII
Unicode decimal digits). -/
theorem claim_C1_index_resolution (numPalettes : Nat) (a : Bool) (cmd : List Char)
    (tok : List Char) (rest : List (List Char)) (hn : 0 < numPalettes) :
    (get_indice_core [cmd] numPalettes a = some 1) ∧
    (get_indice_core (cmd :: "all".toList :: rest) numPalettes true = some (-1)) ∧
    (get_indice_core (cmd :: "ALL".toList :: rest) numPalettes true = some (-1)) ∧
    (get_indice_core (cmd :: "all".toList :: rest) numPalettes false = none) ∧
    (get_indice_core (cmd :: "ALL".toList :: rest) numPalettes false = none) ∧
    (startsWithDash tok = true →
      get_indice_core (cmd :: tok :: rest) numPalettes a = some 1) ∧
    (∀ k : Int, startsWithDash tok = false → pyInt tok = some k → 1 ≤ k →
      k ≤ (numPalettes : Int) →
      get_indice_core (cmd :: tok :: rest) numPalettes a = some k) ∧
    (∀ k : Int, startsWithDash tok = false → pyInt tok = some k →
      (k < 1 ∨ (numPalettes : Int) < k) →
      get_indice_core (cmd :: tok :: rest) numPalettes a = none) ∧
    (startsWithDash tok = false → pyInt tok = none →
      tok.all (fun c => c.toNat < 128) = true →
      ¬tok = "all".toList → ¬tok = "ALL".toList →
      get_indice_core (cmd :: tok :: rest) numPalettes a = none) := by
  have hb1 : boundsCheck 1 numPalettes = some 1 :=
    boundsCheck_in (by omega) (by omega)
  refine ⟨hb1, rfl, rfl, rfl, rfl, ?_, ?_, ?_, ?_⟩
  · intro hdash
    simp only [get_indice_core]
    rw [if_pos hdash]
    exact hb1
  · intro k hdash hpy hk1 hk2
    have hta : ¬tok = "all".toList := by
      intro h
      rw [h, show pyInt "all".toList = none from rfl] at hpy
      cases hpy
    have htA : ¬tok = "ALL".toList := by
      intro h
      rw [h, show pyInt "ALL".toList = none from rfl] at hpy
      cases hpy
    simp only [get_indice_core]
    rw [if_neg (by simp [hdash]), if_neg (by simp; exact fun _ => ⟨hta, htA⟩), hpy]
    exact boundsCheck_in hk1 hk2
  · intro k hdash hpy hout
    have hta : ¬tok = "all".toList := by
      intro h
      rw [h, show pyInt "all".toList = none from rfl] at hpy
      cases hpy
    have htA : ¬tok = "ALL".toList := by
      intro h
      rw [h, show pyInt "ALL".toList = none from rfl] at hpy
      cases hpy
    simp only [get_indice_core]
    rw [if_neg (by simp [hdash]), if_neg (by simp; exact fun _ => ⟨hta, htA⟩), hpy]
    exact boundsCheck_out hout
  · intro hdash hpy _hascii hta htA
    simp only [get_indice_core]
    rw [if_neg (by simp [hdash]), if_neg (by simp; exact fun _ => ⟨hta, htA⟩), hpy]

/-- **C1 counterexample.**  On a 5-record collection with `allowAll` set, the
mixed-case token `All` is invalid (`int("All")` raises and only the exact
casings `all`/`ALL` are recognized), although the claim says a
case-insensitive "all" returns the wildcard; and the non-numeric flag token
`-d` resolves to index 1, although the claim says any non-numeric non-"all"
token is invalid. -/
theorem claim_C1_counterexample :
    get_indice_from_option "/csv All".toList 5 true = none ∧
    get_indice_from_option "/csv -d".toList 5 true = some 1 := by
  constructor <;> decide

/-- **C1 witness.**  The amended resolution theorem on a 5-record collection:
omitted token defaults to 1, `all` returns the wildcard, `6` and `0` are
invalid, `3` resolves to 3, the underscore-grouped `1_0` is numeric with
value 10 (valid on a 10-record collection), and the non-numeric ASCII token
`xyz` is invalid. -/
theorem claim_C1_witness :
    get_indice_core ["/csv".toList] 5 true = some 1 ∧
    get_indice_core ["/csv".toList, "all".toList] 5 true = some (-1) ∧
    get_indice_core ["/csv".toList, "6".toList] 5 true = none ∧
    get_indice_core ["/csv".toList, "0".toList] 5 true = none ∧
    get_indice_core ["/csv".toList, "3".toList] 5 true = some 3 ∧
    get_indice_core ["/csv".toList, "1_0".toList] 10 true = some 10 ∧
    get_indice_core ["/csv".toList, "xyz".toList] 5 true = none := by
  have h6 := claim_C1_index_resolution 5 true "/csv".toList "6".toList [] (by decide)
  have h0 := claim_C1_index_resolution 5 true "/csv".toList "0".toList [] (by decide)
  have h3 := claim_C1_index_resolution 5 true "/csv".toList "3".toList [] (by decide)
  have hu := claim_C1_index_resolution 10 true "/csv".toList "1_0".toList [] (by decide)
  have hx := claim_C1_index_resolution 5 true "/csv".toList "xyz".toList [] (by decide)
  refine ⟨h3.1, h3.2.1, ?_, ?_, ?_, ?_, ?_⟩
  · exact h6.2.2.2.2.2.2.2.1 6 (by decide) (by decide) (by decide)
  · exact h0.2.2.2.2.2.2.2.1 0 (by decide) (by decide) (by decide)
  · exact h3.2.2.2.2.2.2.1 3 (by decide) (by decide) (by decide) (by decide)
  · exact hu.2.2.2.2.2.2.1 10 (by decide) (by decide) (by decide) (by decide)
  · exact hx.2.2.2.2.2.2.2.2 (by decide) (by decide) (by decide) (by decide) (by decide)

/-! ### Claim C2: batch extraction -/

/-- **C2 counterexample.**  A batch whose first image fails extraction: the
exception from `get_palette` is raised outside the `try` block and aborts the
loop, so the second — fully successful — path contributes no record, against
the claim that a failing path is skipped and the rest proceed. -/
theorem claim_C2_counterexample :
    processBatch [⟨"bad", none, none⟩, ⟨"ok", some ⟨[(1, 2, 3)]⟩, some "p"⟩] =
      .error "bad" ∧
    processBatch [⟨"bad", none, none⟩, ⟨"ok", some ⟨[(1, 2, 3)]⟩, some "p"⟩] ≠
      .ok [⟨⟨[(1, 2, 3)]⟩, "ok", "p"⟩] := by
  refine ⟨rfl, fun h => ?_⟩
  simp only [processBatch] at h
  exact Except.noConfusion h

/-- **C2 (amended).**  When every extraction succeeds, a path whose rendering
or saving fails is skipped (logged) and contributes no record without
aborting the batch: the collection holds exactly one record per fully
successful path, in input order.  (An extraction failure instead aborts the
batch, since `get_palette` runs outside the `try` block — see the
counterexample.) -/
theorem claim_C2_batch_extraction (jobs : List ImageJob)
    (hext : ∀ j ∈ jobs, j.extract.isSome = true) :
    processBatch jobs = .ok (jobs.filterMap jobRecord) := by
  induction jobs with
  | nil => rfl
  | cons job rest ih =>
    have hj := hext job (List.mem_cons_self ..)
    have hrest : ∀ j ∈ rest, j.extract.isSome = true :=
      fun j hm => hext j (List.mem_cons_of_mem _ hm)
    obtain ⟨pal, hpal⟩ := Option.isSome_iff_exists.mp hj
    cases hrender : job.render with
    | none =>
      simp only [processBatch, hpal, hrender, List.filterMap_cons, jobRecord]
      exact ih hrest
    | some rendered =>
      simp only [processBatch, hpal, hrender, ih hrest, List.filterMap_cons, jobRecord]

/-- **C2 witness.**  A three-image batch where every extraction succeeds and
the second image fails rendering: only the first and third paths contribute
records, in input order. -/
theorem claim_C2_witness :
    processBatch
      [⟨"a", some ⟨[(1, 2, 3)]⟩, some "pa"⟩,
       ⟨"b", some ⟨[]⟩, none⟩,
       ⟨"c", some ⟨[(4, 5, 6)]⟩, some "pc"⟩] =
      .ok [⟨⟨[(1, 2, 3)]⟩, "a", "pa"⟩, ⟨⟨[(4, 5, 6)]⟩, "c", "pc"⟩] :=
  claim_C2_batch_extraction _ (by decide)

/-! ### Claim C10: ACO output depends only on the RGB list -/

/-- **C10.**  Noninterference of the binary-swatch exporter: two calls with
the same `palette_rgb` but arbitrary palette names and hex lists write
identical byte streams. -/
theorem claim_C10_aco_noninterference (name₁ name₂ : String) (rgb : List RGB)
    (hex₁ hex₂ : List String) :
    exportToACO name₁ rgb hex₁ = exportToACO name₂ rgb hex₂ := rfl

end Palettator
